import Mathlib

/-!
Shallow embedding of the serverless e-commerce API handlers
(src/handlers/auth.js, src/handlers/products.js, src/handlers/orders.js,
src/utils/auth.js, src/services/dynamodb.js) and proofs about them.

JSON values are modelled by an inductive type with rational numbers for
JavaScript numbers; request bodies arrive as the result of JSON.parse,
so an unparseable body is the `none` case (JSON.parse throwing).
External libraries (jsonwebtoken, bcryptjs, uuid, Joi's email/uri format
checks, clock) are passed to each handler as explicit function arguments,
mirroring their role as opaque collaborators of the handler code.
-/

/-- JSON values produced by JSON.parse; numbers are rationals. -/
inductive JVal where
  | str (s : String)
  | num (q : ℚ)
  | bool (b : Bool)
  | null
  | arr (xs : List JVal)
  | obj (fields : List (String × JVal))

/-- Attribute maps: a JavaScript object / DynamoDB record as an ordered
association list of field names to values. -/
abbrev JRec := List (String × JVal)

/-- Lookup of a key in an association list (first match). -/
def alookup {α : Type} : List (String × α) → String → Option α
  | [], _ => none
  | kv :: r, k => if kv.1 = k then some kv.2 else alookup r k

/-- JavaScript object assignment / DynamoDB SET of one attribute:
replace the first binding of the key in place, or append a new binding. -/
def aset {α : Type} : List (String × α) → String → α → List (String × α)
  | [], k, v => [(k, v)]
  | kv :: r, k, v => if kv.1 = k then (k, v) :: r else kv :: aset r k v

/-- DynamoDB DeleteCommand: remove every binding of the key. -/
def aremove {α : Type} : List (String × α) → String → List (String × α)
  | [], _ => []
  | kv :: r, k => if kv.1 = k then aremove r k else kv :: aremove r k

/-- Apply a list of attribute assignments left to right (the SET clauses of
an update expression, or the fields of an object literal in order). -/
def applySets (r : JRec) (ps : List (String × JVal)) : JRec :=
  ps.foldl (fun a p => aset a p.1 p.2) r

theorem alookup_aset_self {α : Type} (l : List (String × α)) (k : String) (v : α) :
    alookup (aset l k v) k = some v := by
  induction l with
  | nil => simp [aset, alookup]
  | cons kv r ih =>
    by_cases h : kv.1 = k
    · simp [aset, h, alookup]
    · simp [aset, h, alookup, ih]

theorem alookup_aset_ne {α : Type} (l : List (String × α)) (k k' : String) (v : α)
    (h : k' ≠ k) : alookup (aset l k v) k' = alookup l k' := by
  induction l with
  | nil =>
    simp only [aset, alookup]
    rw [if_neg (fun hh : k = k' => h hh.symm)]
  | cons kv r ih =>
    by_cases hk : kv.1 = k
    · have hkv : ¬ kv.1 = k' := by rw [hk]; exact fun hh => h hh.symm
      simp only [aset, if_pos hk, alookup, if_neg (fun hh : k = k' => h hh.symm), if_neg hkv]
    · simp only [aset, if_neg hk, alookup]
      by_cases hk' : kv.1 = k'
      · rw [if_pos hk', if_pos hk']
      · rw [if_neg hk', if_neg hk', ih]

theorem alookup_aremove_self {α : Type} (l : List (String × α)) (k : String) :
    alookup (aremove l k) k = none := by
  induction l with
  | nil => simp [aremove, alookup]
  | cons kv r ih =>
    by_cases h : kv.1 = k
    · simp [aremove, h, ih]
    · simp [aremove, h, alookup, ih]

theorem alookup_applySets_not_mem {ps : List (String × JVal)} {k : String}
    (h : k ∉ ps.map Prod.fst) (r : JRec) :
    alookup (applySets r ps) k = alookup r k := by
  induction ps generalizing r with
  | nil => rfl
  | cons p t ih =>
    simp only [List.map_cons, List.mem_cons, not_or] at h
    have hstep : alookup (aset r p.1 p.2) k = alookup r k :=
      alookup_aset_ne r p.1 k p.2 h.1
    calc alookup (applySets (aset r p.1 p.2) t) k
        = alookup (aset r p.1 p.2) k := ih h.2 _
      _ = alookup r k := hstep

theorem alookup_applySets_head {ps : List (String × JVal)} {k : String} {v : JVal}
    (h : k ∉ ps.map Prod.fst) (r : JRec) :
    alookup (applySets r ((k, v) :: ps)) k = some v := by
  have : applySets r ((k, v) :: ps) = applySets (aset r k v) ps := rfl
  rw [this, alookup_applySets_not_mem h, alookup_aset_self]

theorem alookup_applySets_mem {ps : List (String × JVal)} {k : String} {v : JVal}
    (hnd : (ps.map Prod.fst).Nodup) (hm : (k, v) ∈ ps) (r : JRec) :
    alookup (applySets r ps) k = some v := by
  induction ps generalizing r with
  | nil => cases hm
  | cons p t ih =>
    rcases List.mem_cons.mp hm with heq | ht
    · subst heq
      exact alookup_applySets_head ((List.nodup_cons.mp hnd).1) r
    · exact ih ((List.nodup_cons.mp hnd).2) ht _

/-- Claims carried by a verified JWT: the payload signed at login/register. -/
structure Claims where
  userId : String
  email : String
deriving DecidableEq

/-- Transport-level response of a handler: the status code together with the
JSON envelope, which is either a success payload or an error message
(response.js success/created vs badRequest/unauthorized/notFound/serverError). -/
inductive Resp (α : Type) where
  | ok (code : Nat) (data : α)
  | err (code : Nat) (msg : String)
deriving DecidableEq

/-- Status code of a response. -/
def Resp.code {α : Type} : Resp α → Nat
  | .ok c _ => c
  | .err c _ => c

/-- Test that a character list begins with the given pattern. -/
def hasPrefixChars : List Char → List Char → Bool
  | [], _ => true
  | _ :: _, [] => false
  | p :: pr, c :: cr => p == c && hasPrefixChars pr cr

/-- Drop a leading pattern from a character list if it is present. -/
def dropPrefixChars : List Char → List Char → Option (List Char)
  | [], s => some s
  | _ :: _, [] => none
  | p :: pr, c :: cr => if p = c then dropPrefixChars pr cr else none

/-- Remove the first (leftmost) occurrence of the pattern, as JavaScript
String.prototype.replace with a string pattern and empty replacement does. -/
def removeFirstChars (pat : List Char) : List Char → List Char
  | [] => []
  | c :: rest =>
    match dropPrefixChars pat (c :: rest) with
    | some rem => rem
    | none => c :: removeFirstChars pat rest

/-- Model of authHeader.startsWith('Bearer ') from src/utils/auth.js. -/
def bearerPrefixed (h : String) : Bool :=
  hasPrefixChars "Bearer ".data h.data

/-- Model of authHeader.substring(7) from src/utils/auth.js. -/
def dropBearer (h : String) : String :=
  ⟨h.data.drop 7⟩

/-- Model of authHeader.replace('Bearer ', '') from src/handlers/orders.js:
JavaScript replace removes only the first occurrence of the pattern. -/
def stripFirstBearer (h : String) : String :=
  ⟨removeFirstChars "Bearer ".data h.data⟩

/-- The strict guard authenticateToken of src/utils/auth.js: missing or empty
header, a header that does not start with "Bearer ", and a token the verifier
rejects each produce a 401 response; otherwise the decoded claims are
returned. The jsonwebtoken verify call (including the JWT_SECRET presence
check, which also yields null) is the vt argument. The Option String input is
the value of headers.Authorization or-else headers.authorization, with the
empty string still treated as absent by the JavaScript truthiness test. -/
def authenticateToken (vt : String → Option Claims) (h? : Option String) :
    Except (Nat × String) Claims :=
  match h? with
  | none => .error (401, "Authorization header required")
  | some h =>
    if h = "" then .error (401, "Authorization header required")
    else if bearerPrefixed h then
      match vt (dropBearer h) with
      | none => .error (401, "Invalid or expired token")
      | some c => .ok c
    else .error (401, "Invalid authorization format. Use: Bearer <token>")

/-- The lax in-file guard of src/handlers/orders.js (create/getAll/getById):
checks only header presence, then strips the first occurrence of "Bearer "
and verifies whatever remains; there is no format check. -/
def ordersAuth (vt : String → Option Claims) (h? : Option String) :
    Except (Nat × String) Claims :=
  match h? with
  | none => .error (401, "Authorization header required")
  | some h =>
    if h = "" then .error (401, "Authorization header required")
    else
      match vt (stripFirstBearer h) with
      | none => .error (401, "Invalid token")
      | some c => .ok c

/-- Fields of a JSON object; a non-object has none. -/
def objFields : JVal → JRec
  | .obj fs => fs
  | _ => []

/-- Joi default behaviour for object schemas: every key of the validated
object must be one of the keys declared in the schema (unknown keys are
rejected with an is-not-allowed error). -/
def keysAllowed (fs : JRec) (allowed : List String) : Bool :=
  fs.all (fun kv => allowed.contains kv.1)

/-- Joi.string().required(): present, a string, and non-empty (Joi rejects
empty strings by default). -/
def reqStr (fs : JRec) (k : String) : Bool :=
  match alookup fs k with
  | some (.str s) => s != ""
  | _ => false

/-- Joi.string() without required(): absent is fine, otherwise as reqStr. -/
def optStr (fs : JRec) (k : String) : Bool :=
  match alookup fs k with
  | none => true
  | some (.str s) => s != ""
  | _ => false

/-- Joi.number().positive().required(). -/
def reqPosNum (fs : JRec) (k : String) : Bool :=
  match alookup fs k with
  | some (.num q) => decide (0 < q)
  | _ => false

/-- Joi.number().positive() without required(). -/
def optPosNum (fs : JRec) (k : String) : Bool :=
  match alookup fs k with
  | none => true
  | some (.num q) => decide (0 < q)
  | _ => false

/-- Joi.number().integer().min(m).required(). -/
def reqIntMin (fs : JRec) (k : String) (m : Int) : Bool :=
  match alookup fs k with
  | some (.num q) => q.den == 1 && decide (m ≤ q.num)
  | _ => false

/-- Joi.number().integer().min(m) without required(). -/
def optIntMin (fs : JRec) (k : String) (m : Int) : Bool :=
  match alookup fs k with
  | none => true
  | some (.num q) => q.den == 1 && decide (m ≤ q.num)
  | _ => false

/-- Joi.string().uri() without required(); the uri format test itself is the
uriOk argument (an opaque collaborator, like the email format test). -/
def optUri (uriOk : String → Bool) (fs : JRec) (k : String) : Bool :=
  match alookup fs k with
  | none => true
  | some (.str s) => s != "" && uriOk s
  | _ => false

/-- Keys of productSchema in src/handlers/products.js. -/
def allowedProductKeys : List String :=
  ["name", "description", "price", "category", "stock", "imageUrl"]

/-- productSchema of src/handlers/products.js applied to a parsed body. -/
def productBodyOk (uriOk : String → Bool) (v : JVal) : Bool :=
  match v with
  | .obj fs =>
    keysAllowed fs allowedProductKeys
      && reqStr fs "name" && optStr fs "description"
      && reqPosNum fs "price" && reqStr fs "category"
      && reqIntMin fs "stock" 0 && optUri uriOk fs "imageUrl"
  | _ => false

/-- updateProductSchema of src/handlers/products.js: the same keys, all
optional, same per-field rules when present. -/
def updateBodyOk (uriOk : String → Bool) (v : JVal) : Bool :=
  match v with
  | .obj fs =>
    keysAllowed fs allowedProductKeys
      && optStr fs "name" && optStr fs "description"
      && optPosNum fs "price" && optStr fs "category"
      && optIntMin fs "stock" 0 && optUri uriOk fs "imageUrl"
  | _ => false

/-- orderItemSchema of src/handlers/orders.js. -/
def orderItemOk (v : JVal) : Bool :=
  match v with
  | .obj fs =>
    keysAllowed fs ["productId", "quantity", "price"]
      && reqStr fs "productId"
      && reqIntMin fs "quantity" 1
      && reqPosNum fs "price"
  | _ => false

/-- Validation of the items field: a non-empty array of valid items. -/
def itemsFieldOk : Option JVal → Bool
  | some (.arr xs) => !xs.isEmpty && xs.all orderItemOk
  | _ => false

/-- Validation of the shippingAddress field of orderSchema. -/
def shipOk (v : JVal) : Bool :=
  match v with
  | .obj fs =>
    keysAllowed fs ["street", "city", "state", "zipCode", "country"]
      && reqStr fs "street" && reqStr fs "city" && reqStr fs "state"
      && reqStr fs "zipCode" && reqStr fs "country"
  | _ => false

/-- Wrapper making the required shippingAddress field explicit. -/
def shipFieldOk : Option JVal → Bool
  | some v => shipOk v
  | none => false

/-- orderSchema of src/handlers/orders.js applied to a parsed body. -/
def orderBodyOk (v : JVal) : Bool :=
  match v with
  | .obj fs =>
    keysAllowed fs ["items", "shippingAddress"]
      && itemsFieldOk (alookup fs "items")
      && shipFieldOk (alookup fs "shippingAddress")
  | _ => false

/-- One order item as the handler reads it out of the validated body. -/
structure OrderItem where
  productId : String
  quantity : ℚ
  price : ℚ
deriving DecidableEq

/-- String value of a field, defaulting like an absent JavaScript property. -/
def getStr (fs : JRec) (k : String) : String :=
  match alookup fs k with
  | some (.str s) => s
  | _ => ""

/-- Number value of a field, defaulting like an absent JavaScript property. -/
def getNum (fs : JRec) (k : String) : ℚ :=
  match alookup fs k with
  | some (.num q) => q
  | _ => 0

/-- Read one item object of the validated items array. -/
def parseItem : JVal → OrderItem
  | .obj fs => ⟨getStr fs "productId", getNum fs "quantity", getNum fs "price"⟩
  | _ => ⟨"", 0, 0⟩

/-- The items list the order handler works with. -/
def orderItems : Option JVal → List OrderItem
  | some (.arr xs) => xs.map parseItem
  | _ => []

/-- Stored order record as built by create in src/handlers/orders.js. -/
structure OrderRec where
  id : String
  type : String
  userId : String
  userEmail : String
  items : List OrderItem
  shippingAddress : JVal
  totalAmount : ℚ
  status : String
  createdAt : String
  updatedAt : String

/-- Order table slice of the single DynamoDB table: records of type "order"
keyed by id. -/
abbrev OrderStore := List (String × OrderRec)

/-- Product table slice: records of type "product" keyed by id; each record
is a plain attribute map, as DynamoDB stores it. -/
abbrev ProductStore := List (String × JRec)

/-- Stored user record as built by register in src/handlers/auth.js; the id
field is the email and doubles as the store key. -/
structure UserRec where
  id : String
  userId : String
  name : String
  password : String
  createdAt : String
deriving DecidableEq

/-- User table slice: records of type "user" keyed by email. -/
abbrev UserStore := List (String × UserRec)

/-- Body payload of successful register/login: the signed token plus the
public user view. -/
structure AuthPayload where
  token : String
  userId : String
  email : String
  name : String
deriving DecidableEq

/-- Placeholder for the first Joi validation error message
(error.details[0].message); its exact text is not modelled, only the 400
status and the error envelope it is wrapped in. -/
def joiMsg : String := "validation error"

/-- create of src/handlers/orders.js. Arguments model the collaborators:
vt is jwt.verify with the server secret, uuid the uuidv4 draw, now the
current ISO timestamp, h? the resolved Authorization header, body the
result of JSON.parse (none when parsing threw, which lands in the catch
block), db the order slice of the table. Returns the response and the
post-request store. -/
def ordersCreate (vt : String → Option Claims) (uuid now : String)
    (h? : Option String) (body : Option JVal) (db : OrderStore) :
    Resp OrderRec × OrderStore :=
  match ordersAuth vt h? with
  | .error e => (.err e.1 e.2, db)
  | .ok c =>
    match body with
    | none => (.err 500 "Internal server error", db)
    | some v =>
      if orderBodyOk v then
        let fs := objFields v
        let items := orderItems (alookup fs "items")
        let total := items.foldl (fun s i => s + i.price * i.quantity) 0
        let o : OrderRec :=
          ⟨uuid, "order", c.userId, c.email, items,
            (alookup fs "shippingAddress").getD .null, total, "pending", now, now⟩
        (.ok 201 o, aset db uuid o)
      else (.err 400 joiMsg, db)

/-- getById of src/handlers/orders.js: 404 when the id is absent, 401 when
the order belongs to a different user, 200 for the owner. Read-only. -/
def ordersGetById (vt : String → Option Claims) (h? : Option String)
    (pid : String) (db : OrderStore) : Resp OrderRec :=
  match ordersAuth vt h? with
  | .error e => .err e.1 e.2
  | .ok c =>
    match alookup db pid with
    | none => .err 404 "Order not found"
    | some o => if o.userId ≠ c.userId then .err 401 "Access denied" else .ok 200 o

/-- create of src/handlers/products.js: strict guard, parse, validate, then
store the object literal with generated id, type "product", the body
fields in order, and the two timestamps. -/
def productsCreate (vt : String → Option Claims) (uriOk : String → Bool)
    (uuid now : String) (h? : Option String) (body : Option JVal)
    (db : ProductStore) : Resp JRec × ProductStore :=
  match authenticateToken vt h? with
  | .error e => (.err e.1 e.2, db)
  | .ok _ =>
    match body with
    | none => (.err 500 "Internal server error", db)
    | some v =>
      if productBodyOk uriOk v then
        let p := applySets []
          ([("id", .str uuid), ("type", .str "product")] ++ objFields v
            ++ [("createdAt", .str now), ("updatedAt", .str now)])
        (.ok 201 p, aset db uuid p)
      else (.err 400 joiMsg, db)

/-- update of src/handlers/products.js: strict guard, parse, validate
against updateProductSchema, 404 when the key is absent, otherwise build
the update expression (one SET clause per body key, in order, plus the
updatedAt stamp last) and apply it through the dynamodb service, returning
the ALL_NEW record. -/
def productsUpdate (vt : String → Option Claims) (uriOk : String → Bool)
    (now : String) (h? : Option String) (pid : String) (body : Option JVal)
    (db : ProductStore) : Resp JRec × ProductStore :=
  match authenticateToken vt h? with
  | .error e => (.err e.1 e.2, db)
  | .ok _ =>
    match body with
    | none => (.err 500 "Internal server error", db)
    | some v =>
      if updateBodyOk uriOk v then
        match alookup db pid with
        | none => (.err 404 "Product not found", db)
        | some r =>
          let r' := applySets r (objFields v ++ [("updatedAt", .str now)])
          (.ok 200 r', aset db pid r')
      else (.err 400 joiMsg, db)

/-- delete of src/handlers/products.js: strict guard, 404 when the key is
absent, otherwise remove the record and acknowledge. -/
def productsDelete (vt : String → Option Claims) (h? : Option String)
    (pid : String) (db : ProductStore) : Resp JRec × ProductStore :=
  match authenticateToken vt h? with
  | .error e => (.err e.1 e.2, db)
  | .ok _ =>
    match alookup db pid with
    | none => (.err 404 "Product not found", db)
    | some _ =>
      (.ok 200 [("message", .str "Product deleted successfully")], aremove db pid)

/-- Property read during JavaScript object destructuring; non-objects give
undefined for every property. -/
def destr (v : JVal) (k : String) : Option JVal :=
  match v with
  | .obj fs => alookup fs k
  | _ => none

/-- String content of a destructured property, for use after validation. -/
def asStr (o : Option JVal) : String :=
  match o with
  | some (.str s) => s
  | _ => ""

/-- registerSchema of src/handlers/auth.js: email format (the format test
itself is the eok argument), password at least 6 characters, name a
non-empty string. -/
def regOk (eok : String → Bool) (e? p? n? : Option JVal) : Bool :=
  (match e? with | some (.str s) => s != "" && eok s | _ => false)
    && (match p? with | some (.str s) => 6 ≤ s.length | _ => false)
    && (match n? with | some (.str s) => s != "" | _ => false)

/-- loginSchema of src/handlers/auth.js: email format, password required. -/
def loginOk (eok : String → Bool) (e? p? : Option JVal) : Bool :=
  (match e? with | some (.str s) => s != "" && eok s | _ => false)
    && (match p? with | some (.str s) => s != "" | _ => false)

/-- register of src/handlers/auth.js. hash is bcrypt.hash with its fixed
cost, sign is jwt.sign of the userId/email claims with the server secret
and 24h expiry. Destructuring a null parse result throws, landing in the
catch block, hence the 500 on null as well as on a parse failure. -/
def register (eok : String → Bool) (hash : String → String) (uuid now : String)
    (sign : String → String → String) (body : Option JVal) (db : UserStore) :
    Resp AuthPayload × UserStore :=
  match body with
  | none => (.err 500 "Internal server error", db)
  | some .null => (.err 500 "Internal server error", db)
  | some v =>
    if regOk eok (destr v "email") (destr v "password") (destr v "name") then
      let e := asStr (destr v "email")
      let p := asStr (destr v "password")
      let n := asStr (destr v "name")
      match alookup db e with
      | some _ => (.err 400 "User already exists", db)
      | none =>
        let u : UserRec := ⟨e, uuid, n, hash p, now⟩
        ((.ok 201 ⟨sign uuid e, uuid, e, n⟩), aset db e u)
    else (.err 400 joiMsg, db)

/-- login of src/handlers/auth.js. compare is bcrypt.compare applied to the
presented password and the stored hash. An unknown email and a failed
compare both return the same unauthorized response; login never writes. -/
def login (eok : String → Bool) (compare : String → String → Bool)
    (sign : String → String → String) (body : Option JVal) (db : UserStore) :
    Resp AuthPayload :=
  match body with
  | none => .err 500 "Internal server error"
  | some .null => .err 500 "Internal server error"
  | some v =>
    if loginOk eok (destr v "email") (destr v "password") then
      let e := asStr (destr v "email")
      let p := asStr (destr v "password")
      match alookup db e with
      | none => .err 401 "Invalid credentials"
      | some u =>
        if compare p u.password then
          .ok 200 ⟨sign u.userId u.id, u.userId, u.id, u.name⟩
        else .err 401 "Invalid credentials"
    else .err 400 joiMsg

theorem foldl_price_sum (l : List OrderItem) (init : ℚ) :
    l.foldl (fun s i => s + i.price * i.quantity) init
      = init + (l.map fun i => i.price * i.quantity).sum := by
  induction l generalizing init with
  | nil => simp
  | cons a t ih =>
    simp only [List.foldl_cons, List.map_cons, List.sum_cons, ih]
    ring

theorem parseItem_props (v : JVal) (hv : orderItemOk v = true) :
    0 < (parseItem v).price ∧ 1 ≤ (parseItem v).quantity ∧ (parseItem v).quantity.den = 1 := by
  cases v with
  | obj fs =>
    simp only [orderItemOk, Bool.and_eq_true] at hv
    obtain ⟨⟨⟨-, -⟩, hq⟩, hp⟩ := hv
    have hq' : ∃ q : ℚ, alookup fs "quantity" = some (.num q) ∧ q.den = 1 ∧ 1 ≤ q.num := by
      revert hq
      unfold reqIntMin
      cases hl : alookup fs "quantity" with
      | none => intro h; cases h
      | some w =>
        cases w with
        | num q =>
          intro h
          simp only [Bool.and_eq_true, beq_iff_eq, decide_eq_true_eq] at h
          exact ⟨q, rfl, h.1, h.2⟩
        | str s => intro h; cases h
        | bool b => intro h; cases h
        | null => intro h; cases h
        | arr xs => intro h; cases h
        | obj gs => intro h; cases h
    have hp' : ∃ q : ℚ, alookup fs "price" = some (.num q) ∧ 0 < q := by
      revert hp
      unfold reqPosNum
      cases hl : alookup fs "price" with
      | none => intro h; cases h
      | some w =>
        cases w with
        | num q =>
          intro h
          simp only [decide_eq_true_eq] at h
          exact ⟨q, rfl, h⟩
        | str s => intro h; cases h
        | bool b => intro h; cases h
        | null => intro h; cases h
        | arr xs => intro h; cases h
        | obj gs => intro h; cases h
    obtain ⟨q, hlq, hden, hnum⟩ := hq'
    obtain ⟨p, hlp, hpos⟩ := hp'
    have hqv : (parseItem (.obj fs)).quantity = q := by
      simp [parseItem, getNum, hlq]
    have hpv : (parseItem (.obj fs)).price = p := by
      simp [parseItem, getNum, hlp]
    refine ⟨by rw [hpv]; exact hpos, ?_, by rw [hqv]; exact hden⟩
    rw [hqv]
    have hcast : (q.num : ℚ) = q := by
      have := Rat.num_div_den q
      rw [hden] at this
      simpa using this
    calc (1 : ℚ) = ((1 : ℤ) : ℚ) := by norm_num
      _ ≤ (q.num : ℚ) := by exact_mod_cast hnum
      _ = q := hcast
  | str s => cases hv
  | num q => cases hv
  | bool b => cases hv
  | null => cases hv
  | arr xs => cases hv

theorem orderItems_props (o : Option JVal) (h : itemsFieldOk o = true) :
    orderItems o ≠ [] ∧
      ∀ i ∈ orderItems o, 0 < i.price ∧ 1 ≤ i.quantity ∧ i.quantity.den = 1 := by
  cases o with
  | none => cases h
  | some v =>
    cases v with
    | arr xs =>
      simp only [itemsFieldOk, Bool.and_eq_true, Bool.not_eq_true', List.all_eq_true] at h
      obtain ⟨hne, hall⟩ := h
      constructor
      · simp only [orderItems, ne_eq, List.map_eq_nil_iff]
        intro hx
        rw [hx] at hne
        simp [List.isEmpty] at hne
      · intro i hi
        simp only [orderItems, List.mem_map] at hi
        obtain ⟨x, hx, hix⟩ := hi
        rw [← hix]
        exact parseItem_props x (hall x hx)
    | str s => cases h
    | num q => cases h
    | bool b => cases h
    | null => cases h
    | obj fs => cases h

/-- C1: every successfully created order (necessarily built from a non-empty
item list with positive prices and integral quantities at least 1, which the
schema enforces) is stored with totalAmount equal to the sum over its items
of price times quantity. -/
theorem ordersCreate_totalAmount
    (vt : String → Option Claims) (uuid now : String) (h? : Option String)
    (body : Option JVal) (db : OrderStore) (o : OrderRec) (db' : OrderStore)
    (h : ordersCreate vt uuid now h? body db = (.ok 201 o, db')) :
    o.items ≠ [] ∧
      (∀ i ∈ o.items, 0 < i.price ∧ 1 ≤ i.quantity ∧ i.quantity.den = 1) ∧
      o.totalAmount = (o.items.map fun i => i.price * i.quantity).sum ∧
      alookup db' uuid = some o := by
  unfold ordersCreate at h
  cases hA : ordersAuth vt h? with
  | error e => rw [hA] at h; simp at h
  | ok c =>
    rw [hA] at h
    cases body with
    | none => simp at h
    | some v =>
      dsimp only at h
      by_cases hval : orderBodyOk v = true
      · rw [if_pos hval] at h
        cases v with
        | obj fs =>
          simp only [orderBodyOk, Bool.and_eq_true] at hval
          obtain ⟨⟨-, hitems⟩, -⟩ := hval
          simp only [Prod.mk.injEq, Resp.ok.injEq, objFields] at h
          obtain ⟨⟨-, ho⟩, hdb⟩ := h
          obtain ⟨hne, hprops⟩ := orderItems_props _ hitems
          subst ho
          refine ⟨hne, hprops, ?_, ?_⟩
          · simp only [foldl_price_sum, zero_add]
          · rw [← hdb]; exact alookup_aset_self db uuid _
        | str s => cases hval
        | num q => cases hval
        | bool b => cases hval
        | null => cases hval
        | arr xs => cases hval
      · rw [if_neg hval] at h
        simp at h

/-- Concrete token verifier used to exercise the handlers: exactly the
string "sig" is a well-signed token, carrying user u1. -/
def vtc : String → Option Claims :=
  fun t => if t = "sig" then some ⟨"u1", "a@x.com"⟩ else none

/-- Concrete valid order body. -/
def obodyW : JVal :=
  .obj [("items", .arr [.obj [("productId", .str "p1"), ("quantity", .num 2),
          ("price", .num 3)]]),
        ("shippingAddress", .obj [("street", .str "s"), ("city", .str "c"),
          ("state", .str "st"), ("zipCode", .str "z"), ("country", .str "cn")])]

/-- The order record that creating obodyW as user u1 stores; the total is
written as the unreduced sum the handler fold produces. -/
def ocW : OrderRec :=
  ⟨"o1", "order", "u1", "a@x.com", [⟨"p1", 2, 3⟩],
    .obj [("street", .str "s"), ("city", .str "c"), ("state", .str "st"),
      ("zipCode", .str "z"), ("country", .str "cn")],
    0 + 3 * 2, "pending", "t1", "t1"⟩

theorem ordersCreate_totalAmount_witness :
    ocW.items ≠ [] ∧
      (∀ i ∈ ocW.items, 0 < i.price ∧ 1 ≤ i.quantity ∧ i.quantity.den = 1) ∧
      ocW.totalAmount = (ocW.items.map fun i => i.price * i.quantity).sum ∧
      alookup [("o1", ocW)] "o1" = some ocW :=
  ordersCreate_totalAmount vtc "o1" "t1" (some "Bearer sig") (some obodyW) []
    ocW [("o1", ocW)] (by rfl)

/-- C2 amended: the strict guard of src/utils/auth.js rejects an absent,
empty, or non-Bearer-formatted header and an invalid or expired token with
401, and yields the claims otherwise; the order handlers of
src/handlers/orders.js, however, only reject an absent header or an invalid
token — they strip the first occurrence of "Bearer " and accept any header
whose remainder verifies, so a malformed header carrying a valid raw token
is accepted there. -/
theorem auth_guard_contract (vt : String → Option Claims) (h : String) (c : Claims) :
    authenticateToken vt none = .error (401, "Authorization header required")
    ∧ authenticateToken vt (some "") = .error (401, "Authorization header required")
    ∧ (h ≠ "" → bearerPrefixed h = false →
        authenticateToken vt (some h)
          = .error (401, "Invalid authorization format. Use: Bearer <token>"))
    ∧ (h ≠ "" → bearerPrefixed h = true → vt (dropBearer h) = none →
        authenticateToken vt (some h) = .error (401, "Invalid or expired token"))
    ∧ (h ≠ "" → bearerPrefixed h = true → vt (dropBearer h) = some c →
        authenticateToken vt (some h) = .ok c)
    ∧ ordersAuth vt none = .error (401, "Authorization header required")
    ∧ ordersAuth vt (some "") = .error (401, "Authorization header required")
    ∧ (h ≠ "" → vt (stripFirstBearer h) = none →
        ordersAuth vt (some h) = .error (401, "Invalid token"))
    ∧ (h ≠ "" → vt (stripFirstBearer h) = some c →
        ordersAuth vt (some h) = .ok c) := by
  refine ⟨rfl, rfl, ?_, ?_, ?_, rfl, rfl, ?_, ?_⟩
  · intro h1 h2
    simp [authenticateToken, h1, h2]
  · intro h1 h2 h3
    simp [authenticateToken, h1, h2, h3]
  · intro h1 h2 h3
    simp [authenticateToken, h1, h2, h3]
  · intro h1 h2
    simp [ordersAuth, h1, h2]
  · intro h1 h2
    simp [ordersAuth, h1, h2]

theorem auth_guard_contract_witness :
    authenticateToken vtc (some "sig")
        = .error (401, "Invalid authorization format. Use: Bearer <token>")
    ∧ authenticateToken vtc (some "Bearer sig") = .ok ⟨"u1", "a@x.com"⟩
    ∧ ordersAuth vtc (some "sig") = .ok ⟨"u1", "a@x.com"⟩ :=
  ⟨(auth_guard_contract vtc "sig" ⟨"u1", "a@x.com"⟩).2.2.1 (by decide) (by rfl),
   (auth_guard_contract vtc "Bearer sig" ⟨"u1", "a@x.com"⟩).2.2.2.2.1
     (by decide) (by rfl) (by rfl),
   (auth_guard_contract vtc "sig" ⟨"u1", "a@x.com"⟩).2.2.2.2.2.2.2.2
     (by decide) (by rfl)⟩

/-- A stored order owned by user u1, used as a concrete counterexample. -/
def owW : OrderRec :=
  ⟨"o1", "order", "u1", "a@x.com", [], .null, 0, "pending", "t0", "t0"⟩

/-- C2 counterexample: the header "sig" is not of the form "Bearer token"
(bearerPrefixed is false), yet the order getById handler answers 200 with
the order instead of the 401 the claim requires for malformed headers,
because the lax guard strips nothing and the remainder verifies. -/
theorem ordersGetById_malformed_header_accepted :
    bearerPrefixed "sig" = false
    ∧ ordersGetById vtc (some "sig") "o1" [("o1", owW)] = .ok 200 owW := by
  constructor
  · rfl
  · rfl

/-- C3: for an authenticated caller, getById answers 404 when no order is
stored at the id, 401 (never 404) when the order exists but belongs to a
different user, and 200 with the order for its owner. -/
theorem ordersGetById_ownership (vt : String → Option Claims) (h? : Option String)
    (pid : String) (db : OrderStore) (c : Claims)
    (hauth : ordersAuth vt h? = .ok c) :
    (alookup db pid = none →
      ordersGetById vt h? pid db = .err 404 "Order not found")
    ∧ (∀ o, alookup db pid = some o → o.userId ≠ c.userId →
      ordersGetById vt h? pid db = .err 401 "Access denied")
    ∧ (∀ o, alookup db pid = some o → o.userId = c.userId →
      ordersGetById vt h? pid db = .ok 200 o) := by
  unfold ordersGetById
  rw [hauth]
  refine ⟨?_, ?_, ?_⟩
  · intro hl; rw [hl]
  · intro o hl hne; rw [hl]; simp [hne]
  · intro o hl heq; rw [hl]; simp [heq]

/-- A stored order owned by a different user u2. -/
def ow2W : OrderRec :=
  ⟨"o1", "order", "u2", "b@x.com", [], .null, 0, "pending", "t0", "t0"⟩

theorem ordersGetById_ownership_witness :
    ordersGetById vtc (some "Bearer sig") "o1" [("o1", owW)] = .ok 200 owW
    ∧ ordersGetById vtc (some "Bearer sig") "o2" [("o1", owW)]
        = .err 404 "Order not found"
    ∧ ordersGetById vtc (some "Bearer sig") "o1" [("o1", ow2W)]
        = .err 401 "Access denied" :=
  ⟨(ordersGetById_ownership vtc (some "Bearer sig") "o1" [("o1", owW)]
      ⟨"u1", "a@x.com"⟩ (by rfl)).2.2 owW (by rfl) (by rfl),
   (ordersGetById_ownership vtc (some "Bearer sig") "o2" [("o1", owW)]
      ⟨"u1", "a@x.com"⟩ (by rfl)).1 (by rfl),
   (ordersGetById_ownership vtc (some "Bearer sig") "o1" [("o1", ow2W)]
      ⟨"u1", "a@x.com"⟩ (by rfl)).2.1 ow2W (by rfl) (by decide)⟩

theorem keysAllowed_not_mem {fs : JRec} {allowed : List String} {k : String}
    (h : keysAllowed fs allowed = true) (hk : allowed.contains k = false) :
    k ∉ fs.map Prod.fst := by
  intro hmem
  simp only [List.mem_map] at hmem
  obtain ⟨kv, hkv, hfst⟩ := hmem
  have hall := (List.all_eq_true.mp h) kv hkv
  rw [hfst, hk] at hall
  cases hall

/-- C4: across every possible product update request, the id and type
attributes of every stored record are unchanged by the request — a payload
naming id or type is rejected by the schema before the update expression is
built, and the expression itself only sets payload keys plus updatedAt. -/
theorem productsUpdate_preserves_key
    (vt : String → Option Claims) (uriOk : String → Bool) (now : String)
    (h? : Option String) (pid : String) (body : Option JVal) (db : ProductStore)
    (k : String) :
    (alookup (productsUpdate vt uriOk now h? pid body db).2 k).map
        (fun r => alookup r "id")
      = (alookup db k).map (fun r => alookup r "id")
    ∧ (alookup (productsUpdate vt uriOk now h? pid body db).2 k).map
        (fun r => alookup r "type")
      = (alookup db k).map (fun r => alookup r "type") := by
  unfold productsUpdate
  cases hA : authenticateToken vt h? with
  | error e => exact ⟨rfl, rfl⟩
  | ok c =>
    cases body with
    | none => exact ⟨rfl, rfl⟩
    | some v =>
      dsimp only
      by_cases hval : updateBodyOk uriOk v = true
      · rw [if_pos hval]
        cases v with
        | obj fs =>
          simp only [updateBodyOk, Bool.and_eq_true] at hval
          obtain ⟨⟨⟨⟨⟨⟨hkeys, -⟩, -⟩, -⟩, -⟩, -⟩, -⟩ := hval
          cases hr : alookup db pid with
          | none => exact ⟨rfl, rfl⟩
          | some r =>
            dsimp only [objFields]
            have hid : "id" ∉ (fs ++ [("updatedAt", JVal.str now)]).map Prod.fst := by
              rw [List.map_append]
              intro hmem
              rcases List.mem_append.mp hmem with hmem1 | hmem2
              · exact keysAllowed_not_mem hkeys (by decide) hmem1
              · simp only [List.map_cons, List.map_nil, List.mem_singleton] at hmem2
                exact absurd hmem2 (by decide)
            have hty : "type" ∉ (fs ++ [("updatedAt", JVal.str now)]).map Prod.fst := by
              rw [List.map_append]
              intro hmem
              rcases List.mem_append.mp hmem with hmem1 | hmem2
              · exact keysAllowed_not_mem hkeys (by decide) hmem1
              · simp only [List.map_cons, List.map_nil, List.mem_singleton] at hmem2
                exact absurd hmem2 (by decide)
            by_cases hk : k = pid
            · subst hk
              rw [alookup_aset_self, hr]
              constructor
              · exact congrArg some (alookup_applySets_not_mem hid r)
              · exact congrArg some (alookup_applySets_not_mem hty r)
            · rw [alookup_aset_ne db pid k _ hk]
              exact ⟨rfl, rfl⟩
        | str s => cases hval
        | num q => cases hval
        | bool b => cases hval
        | null => cases hval
        | arr xs => cases hval
      · rw [if_neg hval]
        exact ⟨rfl, rfl⟩

/-- C5: a login with an unknown email and a login with a known email but a
password the hash comparison rejects produce the same response: 401 with
the identical generic message, so the two failure causes cannot be told
apart by the caller. -/
theorem login_enum_resistance
    (eok : String → Bool) (cmp : String → String → Bool)
    (sgn : String → String → String) (db : UserStore)
    (e1 p1 e2 p2 : String) (u : UserRec)
    (h1e : eok e1 = true) (h1ne : e1 ≠ "") (h1p : p1 ≠ "")
    (h2e : eok e2 = true) (h2ne : e2 ≠ "") (h2p : p2 ≠ "")
    (hu : alookup db e1 = none)
    (hv : alookup db e2 = some u)
    (hc : cmp p2 u.password = false) :
    login eok cmp sgn (some (.obj [("email", .str e1), ("password", .str p1)])) db
        = .err 401 "Invalid credentials"
    ∧ login eok cmp sgn (some (.obj [("email", .str e2), ("password", .str p2)])) db
        = .err 401 "Invalid credentials" := by
  constructor
  · simp only [login, destr, alookup, asStr, loginOk, if_pos rfl]
    simp only [String.reduceEq, if_false, if_true, reduceIte]
    simp [bne_iff_ne, h1e, h1ne, h1p, hu]
  · simp only [login, destr, alookup, asStr, loginOk, if_pos rfl]
    simp only [String.reduceEq, if_false, if_true, reduceIte]
    simp [bne_iff_ne, h2e, h2ne, h2p, hv, hc]

/-- Concrete email format test: contains an at sign. -/
def eokc : String → Bool := fun s => s.data.contains '@'

/-- Concrete bcrypt compare model: the hash is the password with a bang. -/
def cmpc : String → String → Bool := fun p h => h == p ++ "!"

/-- Concrete token signer. -/
def sgnc : String → String → String := fun u e => u ++ "." ++ e

/-- Concrete stored user; the stored hash matches only the password "pw2". -/
def uW : UserRec := ⟨"b@x.com", "u2", "Bob", "pw2!", "t0"⟩

theorem login_enum_resistance_witness :
    login eokc cmpc sgnc
        (some (.obj [("email", .str "a@x.com"), ("password", .str "pw")]))
        [("b@x.com", uW)]
      = .err 401 "Invalid credentials"
    ∧ login eokc cmpc sgnc
        (some (.obj [("email", .str "b@x.com"), ("password", .str "wrong")]))
        [("b@x.com", uW)]
      = .err 401 "Invalid credentials" :=
  login_enum_resistance eokc cmpc sgnc [("b@x.com", uW)]
    "a@x.com" "pw" "b@x.com" "wrong" uW
    (by rfl) (by decide) (by decide) (by rfl) (by decide) (by decide)
    (by rfl) (by rfl) (by rfl)

/-- C6: for an authenticated caller, deleting an existing product answers
200 with the acknowledgement and removes the record, so a second delete of
the same id answers 404 Not-Found; deleting an absent id answers 404 and
never an internal error. -/
theorem productsDelete_idempotent (vt : String → Option Claims)
    (h? : Option String) (pid : String) (db : ProductStore) (c : Claims)
    (hauth : authenticateToken vt h? = .ok c) :
    (alookup db pid = none →
      productsDelete vt h? pid db = (.err 404 "Product not found", db))
    ∧ (∀ r, alookup db pid = some r →
      productsDelete vt h? pid db
          = (.ok 200 [("message", JVal.str "Product deleted successfully")],
              aremove db pid)
      ∧ alookup (aremove db pid) pid = none
      ∧ productsDelete vt h? pid (aremove db pid)
          = (.err 404 "Product not found", aremove db pid)) := by
  unfold productsDelete
  rw [hauth]
  constructor
  · intro hl; rw [hl]
  · intro r hl
    refine ⟨by rw [hl], alookup_aremove_self db pid, ?_⟩
    rw [alookup_aremove_self db pid]

/-- Concrete stored product record. -/
def prodW : JRec :=
  [("id", .str "p1"), ("type", .str "product"), ("name", .str "Pen"),
   ("price", .num 3), ("category", .str "office"), ("stock", .num 10),
   ("createdAt", .str "t0"), ("updatedAt", .str "t0")]

theorem productsDelete_idempotent_witness :
    productsDelete vtc (some "Bearer sig") "p1" [("p1", prodW)]
        = (.ok 200 [("message", JVal.str "Product deleted successfully")], [])
    ∧ productsDelete vtc (some "Bearer sig") "p1" []
        = (.err 404 "Product not found", [])
    ∧ productsDelete vtc (some "Bearer sig") "p2" [("p1", prodW)]
        = (.err 404 "Product not found", [("p1", prodW)]) :=
  ⟨((productsDelete_idempotent vtc (some "Bearer sig") "p1" [("p1", prodW)]
      ⟨"u1", "a@x.com"⟩ (by rfl)).2 prodW (by rfl)).1,
   ((productsDelete_idempotent vtc (some "Bearer sig") "p1" [("p1", prodW)]
      ⟨"u1", "a@x.com"⟩ (by rfl)).2 prodW (by rfl)).2.2,
   (productsDelete_idempotent vtc (some "Bearer sig") "p2" [("p1", prodW)]
      ⟨"u1", "a@x.com"⟩ (by rfl)).1 (by rfl)⟩

/-- C7: a valid partial update of an existing product succeeds with 200 and
returns (and stores) exactly the old record with the supplied fields set to
their new values, updatedAt restamped, and every attribute not named in the
payload (price included when not supplied) unchanged. -/
theorem productsUpdate_frame
    (vt : String → Option Claims) (uriOk : String → Bool) (now : String)
    (h? : Option String) (pid : String) (fs : JRec) (db : ProductStore)
    (r : JRec) (c : Claims)
    (hauth : authenticateToken vt h? = .ok c)
    (hval : updateBodyOk uriOk (.obj fs) = true)
    (hnd : (fs.map Prod.fst).Nodup)
    (hex : alookup db pid = some r) :
    productsUpdate vt uriOk now h? pid (some (.obj fs)) db
        = (.ok 200 (applySets r (fs ++ [("updatedAt", JVal.str now)])),
           aset db pid (applySets r (fs ++ [("updatedAt", JVal.str now)])))
    ∧ (∀ k v, (k, v) ∈ fs →
        alookup (applySets r (fs ++ [("updatedAt", JVal.str now)])) k = some v)
    ∧ alookup (applySets r (fs ++ [("updatedAt", JVal.str now)])) "updatedAt"
        = some (.str now)
    ∧ (∀ k, k ∉ fs.map Prod.fst → k ≠ "updatedAt" →
        alookup (applySets r (fs ++ [("updatedAt", JVal.str now)])) k
          = alookup r k) := by
  have hkeys : keysAllowed fs allowedProductKeys = true := by
    have hval' := hval
    simp only [updateBodyOk, Bool.and_eq_true] at hval'
    exact hval'.1.1.1.1.1.1
  have hupd : "updatedAt" ∉ fs.map Prod.fst :=
    keysAllowed_not_mem hkeys (by decide)
  have hndfull : ((fs ++ [("updatedAt", JVal.str now)]).map Prod.fst).Nodup := by
    rw [List.map_append]
    refine List.Nodup.append hnd ?_ ?_
    · exact List.nodup_singleton _
    · intro a ha hb
      simp only [List.map_cons, List.map_nil, List.mem_singleton] at hb
      subst hb
      exact hupd ha
  refine ⟨?_, ?_, ?_, ?_⟩
  · unfold productsUpdate
    rw [hauth]
    dsimp only
    rw [if_pos hval, hex]
    rfl
  · intro k v hm
    exact alookup_applySets_mem hndfull (List.mem_append_left _ hm) r
  · exact alookup_applySets_mem hndfull
      (List.mem_append_right _ (List.mem_singleton.mpr rfl)) r
  · intro k hk1 hk2
    refine alookup_applySets_not_mem ?_ r
    rw [List.map_append]
    intro hmem
    rcases List.mem_append.mp hmem with hmem1 | hmem2
    · exact hk1 hmem1
    · simp only [List.map_cons, List.map_nil, List.mem_singleton] at hmem2
      exact hk2 hmem2

/-- Concrete uri format test accepting everything. -/
def uric : String → Bool := fun _ => true

theorem productsUpdate_frame_witness :
    productsUpdate vtc uric "t1" (some "Bearer sig") "p1"
        (some (.obj [("stock", JVal.num 5)])) [("p1", prodW)]
      = (.ok 200 (applySets prodW [("stock", JVal.num 5), ("updatedAt", JVal.str "t1")]),
         aset [("p1", prodW)] "p1"
           (applySets prodW [("stock", JVal.num 5), ("updatedAt", JVal.str "t1")]))
    ∧ alookup (applySets prodW [("stock", JVal.num 5), ("updatedAt", JVal.str "t1")])
        "stock" = some (.num 5)
    ∧ alookup (applySets prodW [("stock", JVal.num 5), ("updatedAt", JVal.str "t1")])
        "updatedAt" = some (.str "t1")
    ∧ alookup (applySets prodW [("stock", JVal.num 5), ("updatedAt", JVal.str "t1")])
        "price" = alookup prodW "price" := by
  have h := productsUpdate_frame vtc uric "t1" (some "Bearer sig") "p1"
    [("stock", JVal.num 5)] [("p1", prodW)] prodW ⟨"u1", "a@x.com"⟩
    (by rfl) (by rfl) (by simp) (by rfl)
  exact ⟨h.1, h.2.1 "stock" (JVal.num 5) (List.mem_singleton.mpr rfl),
    h.2.2.1, h.2.2.2 "price" (by decide) (by decide)⟩

theorem keysAllowed_false_of_mem {fs : JRec} {allowed : List String} {k : String}
    (hm : k ∈ fs.map Prod.fst) (hk : allowed.contains k = false) :
    keysAllowed fs allowed = false := by
  cases hka : keysAllowed fs allowed with
  | false => rfl
  | true => exact absurd hm (keysAllowed_not_mem hka hk)

/-- C8 amended: a body that parses but fails schema validation is answered
with 400; a body that is not parseable JSON (or parses to null, which the
destructuring throws on) is caught at the handler boundary and answered
with the generic 500 internal-error response — it never escapes as a raw
exception, but it is not converted to a 400 either. Stated for the register
handler and the order create handler the claim cites. -/
theorem handlers_error_boundary
    (eok : String → Bool) (hash : String → String) (uuid now : String)
    (sgn : String → String → String) (udb : UserStore)
    (vt : String → Option Claims) (h? : Option String) (db : OrderStore)
    (v : JVal) (c : Claims) :
    register eok hash uuid now sgn none udb
        = (.err 500 "Internal server error", udb)
    ∧ (v ≠ .null →
        regOk eok (destr v "email") (destr v "password") (destr v "name") = false →
        register eok hash uuid now sgn (some v) udb = (.err 400 joiMsg, udb))
    ∧ (ordersAuth vt h? = .ok c →
        ordersCreate vt uuid now h? none db
          = (.err 500 "Internal server error", db))
    ∧ (ordersAuth vt h? = .ok c → orderBodyOk v = false →
        ordersCreate vt uuid now h? (some v) db = (.err 400 joiMsg, db)) := by
  refine ⟨rfl, ?_, ?_, ?_⟩
  · intro hnull hreg
    unfold register
    cases v with
    | null => exact absurd rfl hnull
    | str s => dsimp only; rw [hreg]; rfl
    | num q => dsimp only; rw [hreg]; rfl
    | bool b => dsimp only; rw [hreg]; rfl
    | arr xs => dsimp only; rw [hreg]; rfl
    | obj fs => dsimp only; rw [hreg]; rfl
  · intro hA
    unfold ordersCreate
    rw [hA]
  · intro hA hbad
    unfold ordersCreate
    rw [hA]
    dsimp only
    rw [hbad]
    rfl

/-- Concrete bcrypt hash model. -/
def hashc : String → String := fun s => s ++ "!"

/-- C8 counterexample: a request whose body is not parseable JSON reaches
the register handler as a thrown JSON.parse, and the handler answers 500
with the generic message — not the 400 the claim requires for malformed
input. -/
theorem register_unparseable_body_500 :
    (register eokc hashc "u9" "t0" sgnc none []).1
        = .err 500 "Internal server error"
    ∧ (register eokc hashc "u9" "t0" sgnc none []).1.code ≠ 400 :=
  ⟨rfl, by decide⟩

theorem handlers_error_boundary_witness :
    register eokc hashc "u9" "t0" sgnc none []
        = (.err 500 "Internal server error", [])
    ∧ register eokc hashc "u9" "t0" sgnc
        (some (.obj [("email", .str "nope")])) [] = (.err 400 joiMsg, [])
    ∧ ordersCreate vtc "o9" "t0" (some "Bearer sig") none []
        = (.err 500 "Internal server error", [])
    ∧ ordersCreate vtc "o9" "t0" (some "Bearer sig") (some (.obj [])) []
        = (.err 400 joiMsg, []) := by
  have h := handlers_error_boundary eokc hashc "u9" "t0" sgnc [] vtc
    (some "Bearer sig") [] (.obj [("email", .str "nope")]) ⟨"u1", "a@x.com"⟩
  have h2 := handlers_error_boundary eokc hashc "u9" "t0" sgnc [] vtc
    (some "Bearer sig") [] (.obj []) ⟨"u1", "a@x.com"⟩
  exact ⟨h.1, h.2.1 (fun hh => JVal.noConfusion hh) (by rfl),
    h.2.2.1 (by rfl), h2.2.2.2 (by rfl) (by rfl)⟩

/-- C9: an authenticated product create request whose body names an id or
type key is rejected by the schema with 400 and nothing is stored; every
successful create stores and returns a record whose id is the freshly
generated identifier and whose type is "product", so the caller can never
choose or override the key fields. -/
theorem productsCreate_key_control
    (vt : String → Option Claims) (uriOk : String → Bool) (uuid now : String)
    (h? : Option String) (body : Option JVal) (db : ProductStore) (c : Claims)
    (hauth : authenticateToken vt h? = .ok c) :
    (∀ fs, body = some (.obj fs) →
      ("id" ∈ fs.map Prod.fst ∨ "type" ∈ fs.map Prod.fst) →
      productsCreate vt uriOk uuid now h? body db = (.err 400 joiMsg, db))
    ∧ (∀ p db', productsCreate vt uriOk uuid now h? body db = (.ok 201 p, db') →
      alookup p "id" = some (.str uuid)
      ∧ alookup p "type" = some (.str "product")
      ∧ db' = aset db uuid p) := by
  constructor
  · intro fs hb hmem
    subst hb
    unfold productsCreate
    rw [hauth]
    dsimp only
    have hpb : productBodyOk uriOk (.obj fs) = false := by
      rcases hmem with hid | hty
      · have hka := keysAllowed_false_of_mem hid
          (show allowedProductKeys.contains "id" = false by decide)
        simp [productBodyOk, hka]
      · have hka := keysAllowed_false_of_mem hty
          (show allowedProductKeys.contains "type" = false by decide)
        simp [productBodyOk, hka]
    rw [hpb]
    rfl
  · intro p db' h
    unfold productsCreate at h
    rw [hauth] at h
    cases body with
    | none => simp at h
    | some v =>
      dsimp only at h
      by_cases hval : productBodyOk uriOk v = true
      · rw [if_pos hval] at h
        cases v with
        | obj fs =>
          have hkeys : keysAllowed fs allowedProductKeys = true := by
            have hval' := hval
            simp only [productBodyOk, Bool.and_eq_true] at hval'
            exact hval'.1.1.1.1.1.1
          simp only [Prod.mk.injEq, Resp.ok.injEq, objFields] at h
          obtain ⟨⟨-, hp⟩, hdb⟩ := h
          have hidmem : "id" ∉
              (("type", JVal.str "product") ::
                (fs ++ [("createdAt", JVal.str now), ("updatedAt", JVal.str now)])).map
                Prod.fst := by
            intro hmem
            rw [List.map_cons, List.map_append] at hmem
            rcases List.mem_cons.mp hmem with h1 | hmem2
            · exact absurd h1 (by decide)
            · rcases List.mem_append.mp hmem2 with h2 | h3
              · exact keysAllowed_not_mem hkeys (by decide) h2
              · simp only [List.map_cons, List.map_nil] at h3
                rcases List.mem_cons.mp h3 with h4 | h4
                · exact absurd h4 (by decide)
                · rcases List.mem_cons.mp h4 with h5 | h5
                  · exact absurd h5 (by decide)
                  · cases h5
          have htymem : "type" ∉
              (fs ++ [("createdAt", JVal.str now), ("updatedAt", JVal.str now)]).map
                Prod.fst := by
            intro hmem
            rw [List.map_append] at hmem
            rcases List.mem_append.mp hmem with h2 | h3
            · exact keysAllowed_not_mem hkeys (by decide) h2
            · simp only [List.map_cons, List.map_nil] at h3
              rcases List.mem_cons.mp h3 with h4 | h4
              · exact absurd h4 (by decide)
              · rcases List.mem_cons.mp h4 with h5 | h5
                · exact absurd h5 (by decide)
                · cases h5
          refine ⟨?_, ?_, hdb.symm ▸ by rw [← hp]⟩
          · rw [← hp]
            exact alookup_applySets_head hidmem []
          · rw [← hp]
            exact alookup_applySets_head htymem [("id", JVal.str uuid)]
        | str s => exact absurd hval (by simp [productBodyOk])
        | num q => exact absurd hval (by simp [productBodyOk])
        | bool b => exact absurd hval (by simp [productBodyOk])
        | null => exact absurd hval (by simp [productBodyOk])
        | arr xs => exact absurd hval (by simp [productBodyOk])
      · rw [if_neg hval] at h
        simp at h

/-- Concrete valid product body. -/
def pbodyW : JVal :=
  .obj [("name", .str "Pen"), ("price", .num 3), ("category", .str "office"),
        ("stock", .num 10)]

theorem productsCreate_key_control_witness :
    productsCreate vtc uric "p1" "t0" (some "Bearer sig")
        (some (.obj [("id", JVal.str "E"), ("name", JVal.str "Pen")])) []
      = (.err 400 joiMsg, [])
    ∧ alookup prodW "id" = some (.str "p1")
    ∧ alookup prodW "type" = some (.str "product") := by
  have h := productsCreate_key_control vtc uric "p1" "t0" (some "Bearer sig")
    (some (.obj [("id", JVal.str "E"), ("name", JVal.str "Pen")])) []
    ⟨"u1", "a@x.com"⟩ (by rfl)
  have h2 := productsCreate_key_control vtc uric "p1" "t0" (some "Bearer sig")
    (some pbodyW) [] ⟨"u1", "a@x.com"⟩ (by rfl)
  refine ⟨h.1 _ rfl (Or.inl (by decide)), ?_, ?_⟩
  · exact (h2.2 prodW [("p1", prodW)] (by rfl)).1
  · exact (h2.2 prodW [("p1", prodW)] (by rfl)).2.1

/-- C10: an authenticated order create request whose body carries any key
other than items and shippingAddress (a caller-supplied userId, say) is
rejected by the schema with 400 and nothing is stored; every successful
create stores an order whose userId and userEmail come from the verified
token claims and whose status is "pending", so the body can never influence
the ownership fields. -/
theorem ordersCreate_ownership
    (vt : String → Option Claims) (uuid now : String) (h? : Option String)
    (body : Option JVal) (db : OrderStore) (c : Claims)
    (hauth : ordersAuth vt h? = .ok c) :
    (∀ fs k, body = some (.obj fs) → k ∈ fs.map Prod.fst →
      (["items", "shippingAddress"] : List String).contains k = false →
      ordersCreate vt uuid now h? body db = (.err 400 joiMsg, db))
    ∧ (∀ o db', ordersCreate vt uuid now h? body db = (.ok 201 o, db') →
      o.userId = c.userId ∧ o.userEmail = c.email ∧ o.status = "pending"
      ∧ o.id = uuid ∧ o.type = "order") := by
  constructor
  · intro fs k hb hmem hk
    subst hb
    unfold ordersCreate
    rw [hauth]
    dsimp only
    have hka := keysAllowed_false_of_mem hmem hk
    have hob : orderBodyOk (.obj fs) = false := by
      simp [orderBodyOk, hka]
    rw [hob]
    rfl
  · intro o db' h
    unfold ordersCreate at h
    rw [hauth] at h
    cases body with
    | none => simp at h
    | some v =>
      dsimp only at h
      by_cases hval : orderBodyOk v = true
      · rw [if_pos hval] at h
        simp only [Prod.mk.injEq, Resp.ok.injEq] at h
        obtain ⟨⟨-, ho⟩, -⟩ := h
        subst ho
        exact ⟨rfl, rfl, rfl, rfl, rfl⟩
      · rw [if_neg hval] at h
        simp at h

theorem ordersCreate_ownership_witness :
    ordersCreate vtc "o1" "t1" (some "Bearer sig")
        (some (.obj [("userId", JVal.str "evil")])) []
      = (.err 400 joiMsg, [])
    ∧ ocW.userId = "u1" ∧ ocW.userEmail = "a@x.com"
    ∧ ocW.status = "pending" ∧ ocW.id = "o1" ∧ ocW.type = "order" := by
  have h := ordersCreate_ownership vtc "o1" "t1" (some "Bearer sig")
    (some (.obj [("userId", JVal.str "evil")])) [] ⟨"u1", "a@x.com"⟩ (by rfl)
  have h2 := ordersCreate_ownership vtc "o1" "t1" (some "Bearer sig")
    (some obodyW) [] ⟨"u1", "a@x.com"⟩ (by rfl)
  have h3 := h2.2 ocW [("o1", ocW)] (by rfl)
  exact ⟨h.1 _ "userId" rfl (by decide) (by decide),
    h3.1, h3.2.1, h3.2.2.1, h3.2.2.2.1, h3.2.2.2.2⟩
